import Mathlib

/-!
Verification of the passa tiered dependency-lookup core.

This file gives a shallow embedding of the code in
`src/passa/dependencies.py` and `src/passa/utils.py` and proves the
frozen claims about it.  External collaborators (the requirementslib
requirement parser and dependency cache, the packaging name
canonicalizer, the marker-filter helpers from the repository module
`passa/markers.py`, the wheel builder from `passa/_pip.py`, and the
network) are modelled explicitly from the specification, as noted on
each definition.  All definitions are executable.
-/

deriving instance DecidableEq for Except

namespace Passa

/-- Marker clause.  Modelled from the spec: the repository module
`passa/markers.py` is not under `src/`, so the marker data model follows
section 4.1 of the spec — a marker expression is a conjunction of
clauses, one kind of clause being a synthetic `extra == NAME` condition,
every other environment condition being opaque text. -/
inductive Clause where
  | extra (name : String)
  | cond (text : String)
deriving DecidableEq, Repr

/-- A marker expression: a conjunction of clauses. -/
abbrev Marker := List Clause

/-- Modelled from the spec: `contains_extra` of `passa/markers.py` —
true iff the expression has at least one extra-condition clause.  A
requirement with no marker (`None` in Python) contains no extra. -/
def contains_extra (m : Option Marker) : Bool :=
  (m.getD []).any fun c =>
    match c with
    | .extra _ => true
    | .cond _ => false

/-- Modelled from the spec: `get_contained_extras` of
`passa/markers.py` — the names appearing in extra-condition clauses. -/
def get_contained_extras (m : Option Marker) : List String :=
  (m.getD []).filterMap fun c =>
    match c with
    | .extra n => some n
    | .cond _ => none

/-- Modelled from the spec: `get_without_extra` of `passa/markers.py` —
the expression with every extra clause removed; `none` when the whole
expression reduces to always-true. -/
def get_without_extra (m : Option Marker) : Option Marker :=
  let r := (m.getD []).filter fun c =>
    match c with
    | .extra _ => false
    | .cond _ => true
  if r.isEmpty then none else some r

/-- Check that the first list is an initial segment of the second. -/
def chars_start : List Char → List Char → Bool
  | [], _ => true
  | _ :: _, [] => false
  | a :: as, b :: bs => (a = b) && chars_start as bs

/-- Python `str.endswith`, on the character sequence of the string. -/
def str_ends_with (s pat : String) : Bool :=
  chars_start pat.toList.reverse s.toList.reverse

/-- Python slicing `s[:-n]`: drop the last `n` characters. -/
def str_drop_right (s : String) (n : Nat) : String :=
  String.mk (s.toList.take (s.toList.length - n))

/-- Drop the longest run of characters satisfying `p` from the front
(Python `str.lstrip` with a single strip character). -/
def str_drop_while (s : String) (p : Char → Bool) : String :=
  String.mk (s.toList.dropWhile p)

/-- Lower-case a character and map `_` and `.` to `-`
(one step of name canonicalization). -/
def canon_char (c : Char) : Char :=
  let d := c.toLower
  if d = '_' ∨ d = '.' then '-' else d

/-- Collapse runs of consecutive dashes to a single dash. -/
def squash_dashes : List Char → List Char
  | [] => []
  | [c] => [c]
  | a :: b :: rest =>
    if a = '-' ∧ b = '-' then squash_dashes (b :: rest)
    else a :: squash_dashes (b :: rest)

/-- Modelled from the spec: `packaging.utils.canonicalize_name` (external
library) — normalized package name: lower case, with every run of the
characters `-`, `_`, `.` replaced by a single `-`. -/
def canonicalize_name (s : String) : String :=
  String.mk (squash_dashes (s.toList.map canon_char))

/-- A parsed requirement line (external `requirementslib.Requirement`):
its package name, an opaque remainder (version constraints and the
like), and an optional marker expression. -/
structure Dep where
  name : String
  rest : String
  markers : Option Marker
deriving DecidableEq, Repr

/-- A textual dependency line, as stored in the cache or fetched from
metadata.  Parsing is done by the external requirementslib parser, which
either succeeds (yielding structured data) or raises; a `bad` line is
one the parser rejects. -/
inductive Line where
  | bad (text : String)
  | good (d : Dep)
deriving DecidableEq, Repr

/-- Modelled from the spec: `requirementslib.Requirement.from_line`
(external library) — parse a dependency line, `none` for a parse
failure (a raised exception in Python). -/
def from_line : Line → Option Dep
  | .bad _ => none
  | .good d => some d

/-- Modelled from the spec: `Requirement.as_line` (external library) —
render a parsed requirement back to a line; the round trip with
`from_line` is the identity. -/
def Dep.as_line (d : Dep) : Line := .good d

/-- Normalized name of a parsed requirement
(`Requirement.normalized_name` of the external library). -/
def normalized_name (d : Dep) : String := canonicalize_name d.name

/-- Parse a list of lines; `none` if any line fails to parse (the first
raised exception aborts the whole list comprehension in Python). -/
def parse_lines (ls : List Line) : Option (List Dep) :=
  ls.mapM from_line

/-- Input to `passa.utils.get_pinned_version`: anything with an optional
`specifier` attribute (`none` models an object without the attribute,
which raises `AttributeError` on access) and an `editable` flag.  A
specifier set is its list of `(operator, version)` pairs. -/
structure IreqLike where
  specifier : Option (List (String × String))
  editable : Bool
deriving DecidableEq, Repr

/-- Error kinds of `passa.utils.get_pinned_version`. -/
inductive PinError where
  | typeError
  | valueError
deriving DecidableEq, Repr

/-- Embedding of `passa.utils.get_pinned_version` (src/passa/utils.py
lines 49–88): `TypeError` when the input has no specifier attribute;
`ValueError` when editable, when the specifier set is empty or has more
than one specifier, or when the single specifier is not an exact
non-wildcard pin; otherwise the pinned version. -/
def get_pinned_version (i : IreqLike) : Except PinError String :=
  match i.specifier with
  | none => .error .typeError
  | some specs =>
    if i.editable then .error .valueError
    else if specs.length = 0 then .error .valueError
    else if specs.length ≠ 1 then .error .valueError
    else
      match specs with
      | [] => .error .valueError
      | (op, v) :: _ =>
        if (op = "==" ∨ op = "===") ∧ ¬(str_ends_with v ".*" = true) then .ok v
        else .error .valueError

/-- Embedding of `passa.utils.is_pinned` (src/passa/utils.py lines
91–111): call `get_pinned_version`, catch `TypeError` and `ValueError`
as `False`, otherwise `True`. -/
def is_pinned (i : IreqLike) : Bool :=
  match get_pinned_version i with
  | .error .typeError => false
  | .error .valueError => false
  | .ok _ => true

/-- An install requirement (`InstallRequirement` produced by
`Requirement.as_ireq`): package name, editable flag, specifier set as a
list of `(operator, version)` pairs, and requested extras. -/
structure Ireq where
  name : String
  editable : Bool
  specifier : List (String × String)
  extras : List String
deriving DecidableEq, Repr

/-- Modelled from the spec: the pinned exact version of a requirement,
when it has one — the external
`requirementslib.models.utils.is_pinned_requirement` logic (not
editable, exactly one specifier, operator `==` or `===`, version not
ending in `.*`), returning the version it pins. -/
def pinned_version (i : Ireq) : Option String :=
  if i.editable then none
  else
    match i.specifier with
    | [(op, v)] =>
      if (op = "==" ∨ op = "===") ∧ ¬(str_ends_with v ".*" = true) then some v
      else none
    | _ => none

/-- Modelled from the spec:
`requirementslib.models.utils.is_pinned_requirement` (external
library), used by the auto-caching wrapper. -/
def is_pinned_requirement (i : Ireq) : Bool :=
  (pinned_version i).isSome

/-- Dependency-cache key: (normalized name, exact pinned version), per
spec section 4.2. -/
abbrev CacheKey := String × String

/-- The dependency cache contents: a finite map from keys to lists of
dependency lines, represented as an association list. -/
abbrev Cache := List (CacheKey × List Line)

/-- Look a key up in the cache. -/
def cache_lookup (c : Cache) (k : CacheKey) : Option (List Line) :=
  match c with
  | [] => none
  | (k2, v) :: rest => if k2 = k then some v else cache_lookup rest k

/-- Store an entry in the cache, replacing any entry with the same key. -/
def cache_insert (c : Cache) (k : CacheKey) (v : List Line) : Cache :=
  match c with
  | [] => [(k, v)]
  | (k2, v2) :: rest =>
    if k2 = k then (k, v) :: rest else (k2, v2) :: cache_insert rest k v

/-- Delete an entry from the cache. -/
def cache_erase (c : Cache) (k : CacheKey) : Cache :=
  match c with
  | [] => []
  | (k2, v2) :: rest =>
    if k2 = k then cache_erase rest k else (k2, v2) :: cache_erase rest k

/-- Modelled from the spec: the cache key of a requirement.  The
external requirementslib `DependencyCache` derives its key from the
requirement via `as_cache_key`, which requires a pinned requirement and
fails (raises `TypeError`) for any other; per spec section 3,
requirements without an exact pin or that are editable are never cache
keys. -/
def cache_key (i : Ireq) : Option CacheKey :=
  (pinned_version i).map fun v => (canonicalize_name i.name, v)

/-- Errors that the embedded tiers and chain can raise. -/
inductive Err where
  | typeError
  | parseError
  | buildError
  | exhausted
deriving DecidableEq, Repr

/-- Result of one tier: a raised error, `none` (NotFound), or a list of
dependency lines. -/
abbrev TierResult := Except Err (Option (List Line))

/-- One dependency line of a cache entry is broken when it fails to
parse, carries a marker containing an extra-condition, or names the
package the entry belongs to (normalized name `n`).  This mirrors the
per-line checks of the validation loop in
`_get_dependencies_from_cache` (src/passa/dependencies.py lines
48–59): a parse exception, the `contains_extra` test, and the
self-dependency test. -/
def line_broken (n : String) (l : Line) : Bool :=
  match from_line l with
  | none => true
  | some d => contains_extra d.markers || decide (normalized_name d = n)

/-- A cache entry is broken when any of its lines is; the Python loop
stops at the first broken line (or the first parse exception), which
computes exactly this disjunction. -/
def entry_broken (n : String) (entry : List Line) : Bool :=
  entry.any (line_broken n)

/-- Embedding of `_get_dependencies_from_cache`
(src/passa/dependencies.py lines 34–65).  Returns NotFound for editable
requirements; otherwise subscripts the dependency cache — the external
cache raises `TypeError` for a requirement with no exact pin (only
`KeyError`, a missing entry, is caught and turned into NotFound).  A
present entry is validated line by line; a broken entry is deleted and
NotFound returned, an intact one is returned unchanged. -/
def _get_dependencies_from_cache (c : Cache) (i : Ireq) : TierResult × Cache :=
  if i.editable then (.ok none, c)
  else
    match cache_key i with
    | none => (.error .typeError, c)
    | some k =>
      match cache_lookup c k with
      | none => (.ok none, c)
      | some cached =>
        if entry_broken (canonicalize_name i.name) cached then
          (.ok none, cache_erase c k)
        else (.ok (some cached), c)

/-- Embedding of `_cached` (src/passa/dependencies.py lines 21–31): the
auto-caching wrapper.  It calls the wrapped tier function; when the
result is a list (not NotFound) and the requirement is pinned, the
result is stored in the dependency cache before being returned
unchanged. -/
def _cached (f : Ireq → TierResult) (c : Cache) (i : Ireq) :
    TierResult × Cache :=
  match f i with
  | .error e => (.error e, c)
  | .ok none => (.ok none, c)
  | .ok (some r) =>
    match cache_key i with
    | some k => (.ok (some r), cache_insert c k r)
    | none => (.ok (some r), c)

/-- A configured package source (Pipfile-formatted): its optional URL
(`source.get("url", "")` defaults a missing URL to the empty string). -/
structure Source where
  url : Option String
deriving DecidableEq, Repr

/-- Strip all trailing slashes (Python `rstrip("/")`). -/
def rstrip_slash (s : String) : String :=
  String.mk (((s.toList.reverse).dropWhile fun c => c = '/').reverse)

/-- Embedding of the url-prefix derivation in
`_get_dependencies_from_json` (src/passa/dependencies.py lines 85–92):
each source URL, with trailing slashes stripped, that ends in
`/simple`, with that suffix (7 characters) stripped, in order. -/
def url_bases (sources : List Source) : List String :=
  (sources.map fun s => rstrip_slash (s.url.getD "")).filterMap fun u =>
    if str_ends_with u "/simple" then some (str_drop_right u 7) else none

/-- Insert into a sorted list of strings. -/
def insert_sorted (s : String) : List String → List String
  | [] => [s]
  | t :: rest => if s ≤ t then s :: t :: rest else t :: insert_sorted s rest

/-- Sort a list of strings. -/
def sort_strings : List String → List String
  | [] => []
  | s :: rest => insert_sorted s (sort_strings rest)

/-- Join strings with commas. -/
def join_commas : List String → String
  | [] => ""
  | [s] => s
  | s :: rest => s ++ "," ++ join_commas rest

/-- Modelled from the spec: `str(ireq.specifier)` (external packaging
library) — the comma-joined, sorted rendering of the specifier set. -/
def specifier_str (specs : List (String × String)) : String :=
  join_commas (sort_strings (specs.map fun p => p.1 ++ p.2))

/-- The version string used by the json tier:
`str(ireq.specifier).lstrip("=")` (src/passa/dependencies.py line
95). -/
def version_str (i : Ireq) : String :=
  str_drop_while (specifier_str i.specifier) fun c => c = '='

/-- The metadata endpoint URL built by the json tier
(src/passa/dependencies.py lines 99–103). -/
def json_url (base n v : String) : String :=
  base ++ "/pypi/" ++ n ++ "/" ++ v ++ "/json"

/-- The network, modelled as a function from URL to either a request or
parse failure (`none`, any exception inside the candidate's `try`
block) or the dependency-line list of the response's
`info["requires_dist"]` (or `info["requires"]`) field. -/
abbrev Fetch := String → Option (List Line)

/-- Outcome of one candidate prefix of the json tier
(src/passa/dependencies.py lines 98–117): fetch the endpoint URL; on
success parse every line (a parse failure fails the candidate), keep
the lines whose markers contain no extra-condition, and render them
back with `as_line`. -/
def candidate_result (fetch : Fetch) (n v base : String) :
    Option (List Line) :=
  match fetch (json_url base n v) with
  | none => none
  | some ls =>
    match parse_lines ls with
    | none => none
    | some deps =>
      some ((deps.filter fun d => !(contains_extra d.markers)).map Dep.as_line)

/-- The candidate loop of the json tier: try each base in order,
moving to the next on any failure, stopping at the first success.  Also
returns the list of endpoint URLs requested, for observability of the
single-request-per-candidate behaviour. -/
def json_try (fetch : Fetch) (n v : String) :
    List String → Option (List Line) × List String
  | [] => (none, [])
  | base :: rest =>
    let url := json_url base n v
    match fetch url with
    | none =>
      let r := json_try fetch n v rest
      (r.1, url :: r.2)
    | some ls =>
      match parse_lines ls with
      | none =>
        let r := json_try fetch n v rest
        (r.1, url :: r.2)
      | some deps =>
        (some ((deps.filter fun d => !(contains_extra d.markers)).map Dep.as_line),
         [url])

/-- Embedding of `_get_dependencies_from_json`
(src/passa/dependencies.py lines 68–118).  NotFound for editable
requirements and for requirements with any extras; otherwise the
candidate loop over the derived url bases.  The second component is the
list of endpoint URLs actually requested. -/
def _get_dependencies_from_json (fetch : Fetch) (sources : List Source)
    (i : Ireq) : Option (List Line) × List String :=
  if i.editable then (none, [])
  else if !i.extras.isEmpty then (none, [])
  else json_try fetch (canonicalize_name i.name) (version_str i) (url_bases sources)

/-- A wheel-metadata `run_requires` entry (distlib): either a bare
string, or a dict-like record with an optional `extra` tag and a
`requires` list (missing `requires` defaults to the empty list). -/
inductive MetaEntry where
  | str (l : Line)
  | dict (extra : Option String) (requires : List Line)
deriving DecidableEq, Repr

/-- The per-line marker filtering of `_read_requirements`
(src/passa/dependencies.py lines 144–153): parse the line (a parse
failure propagates); a line with no marker is kept unchanged; a line
whose marker gates on a non-empty set of extras none of which was
requested is skipped; any other marked line is kept with the
extra-conditions stripped from its marker. -/
def process_line (extras : List String) (l : Line) : Except Err (Option Line) :=
  match from_line l with
  | none => .error .parseError
  | some m0 =>
    match m0.markers with
    | none => .ok (some l)
    | some m =>
      if ¬(get_contained_extras (some m)).isEmpty ∧
          ¬(extras.any fun e => (get_contained_extras (some m)).contains e) then
        .ok none
      else
        .ok (some (Dep.as_line { m0 with markers := get_without_extra (some m) }))

/-- Process the lines of one surviving metadata entry in order,
dropping skipped lines and propagating the first parse failure. -/
def process_entry_lines (extras : List String) :
    List Line → Except Err (List Line)
  | [] => .ok []
  | l :: ls =>
    match process_line extras l with
    | .error e => .error e
    | .ok none => process_entry_lines extras ls
    | .ok (some l2) =>
      match process_entry_lines extras ls with
      | .error e => .error e
      | .ok rest => .ok (l2 :: rest)

/-- The extra tag of a metadata entry: a bare string entry has none
(`extra = None` after the normalization `entry = {"requires": [entry]}`
in src/passa/dependencies.py lines 137–141), a dict entry has its
optional `extra` key. -/
def entry_extra : MetaEntry → Option String
  | .str _ => none
  | .dict ex _ => ex

/-- The dependency lines of a metadata entry (`entry.get("requires",
[])`, with a bare string normalized to a one-line list). -/
def entry_requires : MetaEntry → List Line
  | .str l => [l]
  | .dict _ ls => ls

/-- The entry-skip test of `_read_requirements`
(src/passa/dependencies.py line 142): `extra is not None and extra not
in extras`. -/
def entry_skip (extras : List String) (e : MetaEntry) : Bool :=
  match entry_extra e with
  | some ex => !(extras.contains ex)
  | none => false

/-- Embedding of `_read_requirements` (src/passa/dependencies.py lines
121–154).  A bare-string entry behaves as a dict with that single line
and no extra tag.  An entry tagged with an extra not among the
requested extras is skipped entirely; the lines of the surviving
entries are filtered and rewritten by `process_line` and concatenated
in order. -/
def _read_requirements (entries : List MetaEntry) (extras : List String) :
    Except Err (List Line) :=
  match entries with
  | [] => .ok []
  | e :: rest =>
    if entry_skip extras e then
      _read_requirements rest extras
    else
      match process_entry_lines extras (entry_requires e) with
      | .error err => .error err
      | .ok ls =>
        match _read_requirements rest extras with
        | .error err => .error err
        | .ok ls2 => .ok (ls ++ ls2)

/-- The external collaborators and inputs of one lookup: the network,
the configured sources, the wheel builder's returned path (`none` when
it returns no path), the filesystem existence check, and the
`run_requires` metadata of the built wheel. -/
structure Env where
  fetch : Fetch
  sources : List Source
  wheel_path : Option String
  path_exists : String → Bool
  run_requires : List MetaEntry

/-- Whether the builder produced a usable artifact: a non-empty path
(Python truthiness of `wheel_path`) that exists on disk
(src/passa/dependencies.py line 164). -/
def wheel_usable (env : Env) : Bool :=
  match env.wheel_path with
  | none => false
  | some p => !(p = "") && env.path_exists p

/-- Embedding of `_get_dependencies_from_pip`
(src/passa/dependencies.py lines 157–169): raise a build error when the
builder returned no usable artifact; otherwise read the built wheel's
metadata with the requirement's extras (`ireq.extras or ()`). -/
def _get_dependencies_from_pip (env : Env) (i : Ireq) :
    Except Err (List Line) :=
  if !wheel_usable env then .error .buildError
  else _read_requirements env.run_requires i.extras

/-- A tier function as iterated by the chain: given the current cache,
produce a tier result and the new cache. -/
abbrev Getter := Cache → TierResult × Cache

/-- Parse the winning tier's lines into requirement objects
(src/passa/dependencies.py line 193); a parse failure propagates out of
`get_dependencies`. -/
def parse_deps (ls : List Line) : Except Err (List Dep) :=
  match parse_lines ls with
  | none => .error .parseError
  | some ds => .ok ds

/-- Embedding of the getter loop of `get_dependencies`
(src/passa/dependencies.py lines 185–198): run the getters in order,
recording a raised error as the most recent one and continuing; the
first non-null result is parsed and returned immediately.  When every
getter completes without a non-null result, re-raise the most recent
error, or a generic exhaustion error when none was raised.  The third
component counts the getters invoked. -/
def run_getters (gs : List Getter) (c : Cache) (last : Option Err) :
    Except Err (List Dep) × Cache × Nat :=
  match gs with
  | [] =>
    (match last with
     | some e => .error e
     | none => .error .exhausted, c, 0)
  | g :: rest =>
    match g c with
    | (.error e, c2) =>
      let r := run_getters rest c2 (some e)
      (r.1, r.2.1, r.2.2 + 1)
    | (.ok none, c2) =>
      let r := run_getters rest c2 last
      (r.1, r.2.1, r.2.2 + 1)
    | (.ok (some ls), c2) => (parse_deps ls, c2, 1)

/-- The json tier function as passed to the wrapper: it never raises
(every candidate failure is caught inside the loop). -/
def json_fn (env : Env) (i : Ireq) : TierResult :=
  .ok (_get_dependencies_from_json env.fetch env.sources i).1

/-- The pip tier function as passed to the wrapper: a raised error
propagates, a returned list (never null) is the result. -/
def pip_fn (env : Env) (i : Ireq) : TierResult :=
  match _get_dependencies_from_pip env i with
  | .error e => .error e
  | .ok ls => .ok (some ls)

/-- The fixed getter list of `get_dependencies`
(src/passa/dependencies.py lines 179–183): the cache tier, then the
auto-cached json tier, then the auto-cached pip tier. -/
def getters (env : Env) (i : Ireq) : List Getter :=
  [fun c => _get_dependencies_from_cache c i,
   fun c => _cached (json_fn env) c i,
   fun c => _cached (pip_fn env) c i]

/-- Embedding of `get_dependencies` (src/passa/dependencies.py lines
172–198).  `requirement.as_ireq()` is the identity in this embedding
(the requirement is given directly as an install requirement).  Returns
the chain result, the final cache, and the number of tiers invoked. -/
def get_dependencies (env : Env) (c : Cache) (i : Ireq) :
    Except Err (List Dep) × Cache × Nat :=
  run_getters (getters env i) c none

/-- Whether every getter in the list completes without returning a
non-null result (each returns NotFound or raises), threading the cache
through. -/
def all_miss (gs : List Getter) (c : Cache) : Bool :=
  match gs with
  | [] => true
  | g :: rest =>
    match g c with
    | (.ok (some _), _) => false
    | (.ok none, c2) => all_miss rest c2
    | (.error _, c2) => all_miss rest c2

/-- The most recent error recorded while running the getters in order
(starting from `last`), assuming no getter returns a non-null result. -/
def last_err (gs : List Getter) (c : Cache) (last : Option Err) : Option Err :=
  match gs with
  | [] => last
  | g :: rest =>
    match g c with
    | (.ok (some _), _) => last
    | (.ok none, c2) => last_err rest c2 last
    | (.error e, c2) => last_err rest c2 (some e)

theorem get_pinned_version_ok_iff (i : IreqLike) (v : String) :
    get_pinned_version i = .ok v ↔
      ∃ op, i.specifier = some [(op, v)] ∧ i.editable = false ∧
        (op = "==" ∨ op = "===") ∧ str_ends_with v ".*" = false := by
  obtain ⟨sp, ed⟩ := i
  cases sp with
  | none => simp [get_pinned_version]
  | some specs =>
    cases ed with
    | true => simp [get_pinned_version]
    | false =>
      match specs with
      | [] => simp [get_pinned_version]
      | (op, v0) :: hd2 :: tl2 => simp [get_pinned_version]
      | [(op, v0)] =>
        by_cases hop : (op = "==" ∨ op = "===") ∧ ¬(str_ends_with v0 ".*" = true)
        · simp only [get_pinned_version]
          rw [if_neg (by simp), if_neg (by simp), if_neg (by simp), if_pos hop]
          constructor
          · intro h
            injection h with h
            subst h
            exact ⟨op, rfl, trivial, hop.1, by simpa using hop.2⟩
          · rintro ⟨op2, hsp, -, -, -⟩
            simp only [Option.some.injEq, List.cons.injEq, Prod.mk.injEq, and_true] at hsp
            obtain ⟨rfl, rfl⟩ := hsp
            rfl
        · simp only [get_pinned_version]
          rw [if_neg (by simp), if_neg (by simp), if_neg (by simp), if_neg hop]
          constructor
          · intro h
            cases h
          · rintro ⟨op2, hsp, -, h1, h2⟩
            simp only [Option.some.injEq, List.cons.injEq, Prod.mk.injEq, and_true] at hsp
            obtain ⟨rfl, rfl⟩ := hsp
            exact absurd ⟨h1, by simp [h2]⟩ hop

/-- C10: `is_pinned` returns true exactly when `get_pinned_version`
returns a version — equivalently, exactly when the input has a
specifier attribute, is not editable, and has exactly one specifier
whose operator is `==` or `===` and whose version does not end in
`.*` — and `is_pinned` maps every `TypeError` or `ValueError` raised by
`get_pinned_version` to `False` instead of raising. -/
theorem C10_is_pinned (i : IreqLike) :
    (is_pinned i = true ↔ ∃ v, get_pinned_version i = .ok v) ∧
    (is_pinned i = true ↔
      ∃ op v, i.specifier = some [(op, v)] ∧ i.editable = false ∧
        (op = "==" ∨ op = "===") ∧ str_ends_with v ".*" = false) ∧
    (∀ e, get_pinned_version i = .error e → is_pinned i = false) := by
  have h1 : is_pinned i = true ↔ ∃ v, get_pinned_version i = .ok v := by
    unfold is_pinned
    cases h : get_pinned_version i with
    | error e => cases e <;> simp
    | ok v => simp
  refine ⟨h1, ?_, ?_⟩
  · rw [h1]
    constructor
    · rintro ⟨v, hv⟩
      obtain ⟨op, h⟩ := (get_pinned_version_ok_iff i v).1 hv
      exact ⟨op, v, h⟩
    · rintro ⟨op, v, h⟩
      exact ⟨v, (get_pinned_version_ok_iff i v).2 ⟨op, h⟩⟩
  · intro e he
    unfold is_pinned
    rw [he]
    cases e <;> rfl

theorem line_broken_false_iff (n : String) (l : Line) :
    line_broken n l = false ↔
      ∃ d, from_line l = some d ∧ contains_extra d.markers = false ∧
        normalized_name d ≠ n := by
  cases l with
  | bad t => simp [line_broken, from_line]
  | good d => simp [line_broken, from_line]

theorem entry_broken_false_iff (n : String) (entry : List Line) :
    entry_broken n entry = false ↔
      ∀ l ∈ entry, ∃ d, from_line l = some d ∧ contains_extra d.markers = false ∧
        normalized_name d ≠ n := by
  unfold entry_broken
  rw [List.any_eq_false]
  constructor
  · intro h l hl
    exact (line_broken_false_iff n l).1 (by simpa using h l hl)
  · intro h l hl
    simpa using (line_broken_false_iff n l).2 (h l hl)

/-- C1 counterexample: for the non-editable, non-pinned requirement
`django>1.8` the cache tier does not return NotFound without consulting
the cache — it subscripts the cache, whose key derivation fails for an
unpinned requirement, so the tier raises instead of returning
NotFound. -/
theorem C1_counterexample :
    (_get_dependencies_from_cache [] ⟨"django", false, [(">", "1.8")], []⟩).1
        = Except.error Err.typeError ∧
    ¬((_get_dependencies_from_cache [] ⟨"django", false, [(">", "1.8")], []⟩).1
        = Except.ok none) := by
  constructor
  · rfl
  · decide

/-- C1 (amended): the cache tier skips the cache only for editable
requirements (returning NotFound); a non-editable requirement without
an exact pin still reaches the cache subscript, whose key derivation
fails, raising an error (swallowed later by the chain) — the stored
data is never read and never written; and the auto-caching wrapper is
the identity on the cache (never stores) for any requirement that is
editable or lacks an exact pin. -/
theorem C1_cache_pin_only_amended (f : Ireq → TierResult) (c : Cache) (i : Ireq) :
    (i.editable = true → _get_dependencies_from_cache c i = (.ok none, c)) ∧
    (i.editable = false → pinned_version i = none →
      _get_dependencies_from_cache c i = (.error .typeError, c)) ∧
    (is_pinned_requirement i = false → _cached f c i = (f i, c)) := by
  refine ⟨?_, ?_, ?_⟩
  · intro hed
    unfold _get_dependencies_from_cache
    rw [if_pos hed]
  · intro hed hp
    unfold _get_dependencies_from_cache
    rw [if_neg (by simp [hed])]
    have hk : cache_key i = none := by
      unfold cache_key
      rw [hp]
      rfl
    rw [hk]
  · intro hpin
    have hk : cache_key i = none := by
      unfold cache_key
      cases h : pinned_version i with
      | none => rfl
      | some v =>
        unfold is_pinned_requirement at hpin
        rw [h] at hpin
        simp at hpin
    unfold _cached
    cases hf : f i with
    | error e => rfl
    | ok o =>
      cases o with
      | none => rfl
      | some r => rw [hk]

/-- Witness for C1's amended theorem at concrete inputs: an editable
requirement, the unpinned `django>1.8`, and the wrapper left as the
identity on the cache for the unpinned requirement. -/
theorem C1_witness :
    _get_dependencies_from_cache [] ⟨"pkg", true, [], []⟩ = (.ok none, []) ∧
    _get_dependencies_from_cache [] ⟨"django", false, [(">", "1.8")], []⟩
      = (.error .typeError, []) ∧
    _cached (fun _ => .ok (some [])) [] ⟨"django", false, [(">", "1.8")], []⟩
      = (.ok (some []), []) := by
  refine ⟨?_, ?_, ?_⟩
  · exact (C1_cache_pin_only_amended (fun _ => .ok (some [])) []
      ⟨"pkg", true, [], []⟩).1 rfl
  · exact (C1_cache_pin_only_amended (fun _ => .ok (some []))  []
      ⟨"django", false, [(">", "1.8")], []⟩).2.1 rfl (by decide)
  · exact (C1_cache_pin_only_amended (fun _ => .ok (some [])) []
      ⟨"django", false, [(">", "1.8")], []⟩).2.2 (by decide)

/-- C2: for a non-editable, pinned requirement whose cache entry is
present, the cache tier returns the entry unchanged exactly when every
line of the entry parses, carries no extra-condition marker, and names
a package other than the requirement itself; a broken entry is deleted
and NotFound returned. -/
theorem C2_cache_validation (c : Cache) (i : Ireq) (v : String) (entry : List Line)
    (hed : i.editable = false)
    (hp : pinned_version i = some v)
    (hc : cache_lookup c (canonicalize_name i.name, v) = some entry) :
    (_get_dependencies_from_cache c i = (.ok (some entry), c) ↔
      ∀ l ∈ entry, ∃ d, from_line l = some d ∧
        contains_extra d.markers = false ∧
        normalized_name d ≠ canonicalize_name i.name) ∧
    (entry_broken (canonicalize_name i.name) entry = true →
      _get_dependencies_from_cache c i
        = (.ok none, cache_erase c (canonicalize_name i.name, v))) := by
  have hkey : cache_key i = some (canonicalize_name i.name, v) := by
    unfold cache_key
    rw [hp]
    rfl
  have hrun : _get_dependencies_from_cache c i =
      (if entry_broken (canonicalize_name i.name) entry then
        ((.ok none : TierResult), cache_erase c (canonicalize_name i.name, v))
       else (.ok (some entry), c)) := by
    unfold _get_dependencies_from_cache
    rw [if_neg (by simp [hed]), hkey]
    simp only [hc]
  constructor
  · rw [hrun, ← entry_broken_false_iff]
    by_cases hb : entry_broken (canonicalize_name i.name) entry = true
    · simp [hb]
    · simp [hb]
  · intro hb
    rw [hrun, if_pos hb]

/-- Witness for C2 at a concrete input: the pinned requirement
`Flask==1.0` with a valid cached entry `werkzeug>=0.15`. -/
theorem C2_witness :
    (_get_dependencies_from_cache
        [(("flask", "1.0"), [Line.good ⟨"werkzeug", ">=0.15", none⟩])]
        ⟨"Flask", false, [("==", "1.0")], []⟩
      = (.ok (some [Line.good ⟨"werkzeug", ">=0.15", none⟩]),
         [(("flask", "1.0"), [Line.good ⟨"werkzeug", ">=0.15", none⟩])]) ↔
      ∀ l ∈ [Line.good (Dep.mk "werkzeug" ">=0.15" none)], ∃ d, from_line l = some d ∧
        contains_extra d.markers = false ∧
        normalized_name d ≠ canonicalize_name "Flask") ∧
    (entry_broken (canonicalize_name "Flask")
        [Line.good ⟨"werkzeug", ">=0.15", none⟩] = true →
      _get_dependencies_from_cache
        [(("flask", "1.0"), [Line.good ⟨"werkzeug", ">=0.15", none⟩])]
        ⟨"Flask", false, [("==", "1.0")], []⟩
      = (.ok none, cache_erase
          [(("flask", "1.0"), [Line.good ⟨"werkzeug", ">=0.15", none⟩])]
          (canonicalize_name "Flask", "1.0"))) :=
  C2_cache_validation
    [(("flask", "1.0"), [Line.good ⟨"werkzeug", ">=0.15", none⟩])]
    ⟨"Flask", false, [("==", "1.0")], []⟩ "1.0"
    [Line.good ⟨"werkzeug", ">=0.15", none⟩]
    rfl (by decide) (by decide)

theorem cache_lookup_insert (c : Cache) (k : CacheKey) (r : List Line) :
    cache_lookup (cache_insert c k r) k = some r := by
  induction c with
  | nil => simp [cache_insert, cache_lookup]
  | cons hd rest ih =>
    obtain ⟨k2, v2⟩ := hd
    by_cases h : k2 = k
    · simp [cache_insert, cache_lookup, h]
    · simp [cache_insert, cache_lookup, h, ih]

theorem cached_fst (f : Ireq → TierResult) (c : Cache) (i : Ireq) :
    (_cached f c i).1 = f i := by
  unfold _cached
  cases hf : f i with
  | error e => rfl
  | ok o =>
    cases o with
    | none => rfl
    | some r =>
      cases hk : cache_key i <;> rfl

/-- C6: the remote-metadata tier returns NotFound, without issuing any
network request (the list of requested URLs is empty), for every
requirement that is editable or declares any extras. -/
theorem C6_json_guard (fetch : Fetch) (sources : List Source) (i : Ireq)
    (h : i.editable = true ∨ i.extras ≠ []) :
    _get_dependencies_from_json fetch sources i = (none, []) := by
  rcases h with h | h
  · simp [_get_dependencies_from_json, h]
  · by_cases he : i.editable
    · simp [_get_dependencies_from_json, he]
    · simp [_get_dependencies_from_json, he, h]

/-- Witness for C6: an editable requirement and a requirement with an
extra, against a network that would answer every request. -/
theorem C6_witness :
    _get_dependencies_from_json (fun _ => some []) [Source.mk (some "https://pypi.org/simple")]
        ⟨"pkg", true, [("==", "1.0")], []⟩ = (none, []) ∧
    _get_dependencies_from_json (fun _ => some []) [Source.mk (some "https://pypi.org/simple")]
        ⟨"pkg", false, [("==", "1.0")], ["sec"]⟩ = (none, []) :=
  ⟨C6_json_guard (fun _ => some []) [Source.mk (some "https://pypi.org/simple")]
      ⟨"pkg", true, [("==", "1.0")], []⟩ (Or.inl rfl),
   C6_json_guard (fun _ => some []) [Source.mk (some "https://pypi.org/simple")]
      ⟨"pkg", false, [("==", "1.0")], ["sec"]⟩ (Or.inr (by decide))⟩

theorem json_try_eq_findSome (fetch : Fetch) (n v : String) (bases : List String) :
    (json_try fetch n v bases).1 = bases.findSome? (candidate_result fetch n v) := by
  induction bases with
  | nil => rfl
  | cons b rest ih =>
    rw [List.findSome?_cons]
    cases hf : fetch (json_url b n v) with
    | none =>
      simp only [json_try, candidate_result, hf]
      exact ih
    | some ls =>
      cases hp : parse_lines ls with
      | none =>
        simp only [json_try, candidate_result, hf, hp]
        exact ih
      | some deps =>
        simp only [json_try, candidate_result, hf, hp]

theorem candidate_result_no_extra (fetch : Fetch) (n v base : String)
    (res : List Line) (h : candidate_result fetch n v base = some res) :
    ∀ l ∈ res, ∃ d, from_line l = some d ∧ contains_extra d.markers = false := by
  unfold candidate_result at h
  cases hf : fetch (json_url base n v) with
  | none =>
    simp only [hf] at h
    cases h
  | some ls =>
    simp only [hf] at h
    cases hp : parse_lines ls with
    | none =>
      simp only [hp] at h
      cases h
    | some deps =>
      simp only [hp, Option.some.injEq] at h
      subst h
      intro l hl
      rw [List.mem_map] at hl
      obtain ⟨d, hd, rfl⟩ := hl
      refine ⟨d, rfl, ?_⟩
      have h2 := (List.mem_filter.1 hd).2
      simpa using h2

/-- C7: for a non-editable requirement with no extras, the json tier's
result is the first success among the candidate url bases, in order
(`List.findSome?`: a failed candidate moves on to the next, exhaustion
of all candidates yields NotFound — the tier's type has no error
outcome), and any returned list contains no line whose marker carries
an extra-condition. -/
theorem C7_json_candidates (fetch : Fetch) (sources : List Source) (i : Ireq)
    (hed : i.editable = false) (hex : i.extras = []) :
    ((_get_dependencies_from_json fetch sources i).1
      = (url_bases sources).findSome?
          (candidate_result fetch (canonicalize_name i.name) (version_str i))) ∧
    (∀ res, (_get_dependencies_from_json fetch sources i).1 = some res →
      ∀ l ∈ res, ∃ d, from_line l = some d ∧ contains_extra d.markers = false) := by
  have hmain : (_get_dependencies_from_json fetch sources i).1
      = (url_bases sources).findSome?
          (candidate_result fetch (canonicalize_name i.name) (version_str i)) := by
    unfold _get_dependencies_from_json
    rw [if_neg (by simp [hed]), if_neg (by simp [hex])]
    exact json_try_eq_findSome fetch (canonicalize_name i.name) (version_str i)
      (url_bases sources)
  refine ⟨hmain, ?_⟩
  intro res hres
  rw [hmain] at hres
  obtain ⟨base, hbase, hcand⟩ := List.exists_of_findSome?_eq_some hres
  exact candidate_result_no_extra fetch (canonicalize_name i.name) (version_str i)
    base res hcand

/-- Witness for C7: `Flask==1.0` against one configured source whose
network answer contains an extra-marked line; the returned list keeps
only the unconditioned dependency. -/
theorem C7_witness :
    ((_get_dependencies_from_json
        (fun u => if u = "https://pypi.org/pypi/flask/1.0/json" then
          some [Line.good ⟨"werkzeug", ">=0.15", none⟩,
                Line.good ⟨"jinja2", ">=2.10", some [Clause.extra "dotenv"]⟩]
          else none)
        [Source.mk (some "https://pypi.org/simple")]
        ⟨"Flask", false, [("==", "1.0")], []⟩).1
      = (url_bases [Source.mk (some "https://pypi.org/simple")]).findSome?
          (candidate_result
            (fun u => if u = "https://pypi.org/pypi/flask/1.0/json" then
              some [Line.good ⟨"werkzeug", ">=0.15", none⟩,
                    Line.good ⟨"jinja2", ">=2.10", some [Clause.extra "dotenv"]⟩]
              else none)
            (canonicalize_name "Flask")
            (version_str ⟨"Flask", false, [("==", "1.0")], []⟩))) ∧
    (∀ res, (_get_dependencies_from_json
        (fun u => if u = "https://pypi.org/pypi/flask/1.0/json" then
          some [Line.good ⟨"werkzeug", ">=0.15", none⟩,
                Line.good ⟨"jinja2", ">=2.10", some [Clause.extra "dotenv"]⟩]
          else none)
        [Source.mk (some "https://pypi.org/simple")]
        ⟨"Flask", false, [("==", "1.0")], []⟩).1 = some res →
      ∀ l ∈ res, ∃ d, from_line l = some d ∧ contains_extra d.markers = false) :=
  C7_json_candidates
    (fun u => if u = "https://pypi.org/pypi/flask/1.0/json" then
      some [Line.good ⟨"werkzeug", ">=0.15", none⟩,
            Line.good ⟨"jinja2", ">=2.10", some [Clause.extra "dotenv"]⟩]
      else none)
    [Source.mk (some "https://pypi.org/simple")]
    ⟨"Flask", false, [("==", "1.0")], []⟩ rfl rfl

/-- C8: the auto-caching wrapper returns exactly the wrapped tier
function's result; it writes the cache exactly when that result is a
list and the requirement is pinned (which entails not editable), the
write landing under the requirement's key before the result is
returned, so that the cache tier can satisfy a subsequent lookup of the
same pinned requirement whenever the stored entry passes validation. -/
theorem C8_autocache (f : Ireq → TierResult) (c : Cache) (i : Ireq) :
    ((_cached f c i).1 = f i) ∧
    (∀ r v, f i = .ok (some r) → pinned_version i = some v →
      (_cached f c i).2 = cache_insert c (canonicalize_name i.name, v) r ∧
      cache_lookup ((_cached f c i).2) (canonicalize_name i.name, v) = some r) ∧
    ((f i = .ok none ∨ (∃ e, f i = .error e) ∨ is_pinned_requirement i = false) →
      (_cached f c i).2 = c) ∧
    (∀ r v, f i = .ok (some r) → i.editable = false → pinned_version i = some v →
      entry_broken (canonicalize_name i.name) r = false →
      _get_dependencies_from_cache ((_cached f c i).2) i
        = (.ok (some r), (_cached f c i).2)) := by
  refine ⟨cached_fst f c i, ?_, ?_, ?_⟩
  · intro r v hf hp
    have hk : cache_key i = some (canonicalize_name i.name, v) := by
      unfold cache_key
      rw [hp]
      rfl
    have h2 : (_cached f c i).2 = cache_insert c (canonicalize_name i.name, v) r := by
      unfold _cached
      rw [hf, hk]
    exact ⟨h2, by rw [h2]; exact cache_lookup_insert c _ r⟩
  · intro h
    rcases h with h | ⟨e, h⟩ | h
    · unfold _cached
      rw [h]
    · unfold _cached
      rw [h]
    · unfold _cached
      cases hf : f i with
      | error e => rfl
      | ok o =>
        cases o with
        | none => rfl
        | some r =>
          have hk : cache_key i = none := by
            unfold cache_key
            cases hpv : pinned_version i with
            | none => rfl
            | some v =>
              unfold is_pinned_requirement at h
              rw [hpv] at h
              simp at h
          rw [hk]
  · intro r v hf hed hp hok
    have hk : cache_key i = some (canonicalize_name i.name, v) := by
      unfold cache_key
      rw [hp]
      rfl
    have h2 : (_cached f c i).2 = cache_insert c (canonicalize_name i.name, v) r := by
      unfold _cached
      rw [hf, hk]
    rw [h2]
    unfold _get_dependencies_from_cache
    rw [if_neg (by simp [hed]), hk]
    simp only [cache_lookup_insert, hok, Bool.false_eq_true, if_false]

/-- Witness for C8: the pip tier returning `B==2.0`'s dependency list
is cached, and the cache tier then serves the entry. -/
theorem C8_witness :
    ((_cached (fun _ => .ok (some [Line.good ⟨"six", ">=1.0", none⟩])) []
        ⟨"B", false, [("==", "2.0")], []⟩).1
      = (fun (_ : Ireq) => (.ok (some [Line.good ⟨"six", ">=1.0", none⟩]) : TierResult))
          ⟨"B", false, [("==", "2.0")], []⟩) ∧
    ((_cached (fun _ => .ok (some [Line.good ⟨"six", ">=1.0", none⟩])) []
        ⟨"B", false, [("==", "2.0")], []⟩).2
      = cache_insert [] (canonicalize_name "B", "2.0") [Line.good ⟨"six", ">=1.0", none⟩]) ∧
    (_get_dependencies_from_cache
        ((_cached (fun _ => .ok (some [Line.good ⟨"six", ">=1.0", none⟩])) []
          ⟨"B", false, [("==", "2.0")], []⟩).2)
        ⟨"B", false, [("==", "2.0")], []⟩
      = (.ok (some [Line.good ⟨"six", ">=1.0", none⟩]),
         (_cached (fun _ => .ok (some [Line.good ⟨"six", ">=1.0", none⟩])) []
          ⟨"B", false, [("==", "2.0")], []⟩).2)) := by
  refine ⟨(C8_autocache (fun _ => .ok (some [Line.good ⟨"six", ">=1.0", none⟩])) []
      ⟨"B", false, [("==", "2.0")], []⟩).1, ?_, ?_⟩
  · exact ((C8_autocache (fun _ => .ok (some [Line.good ⟨"six", ">=1.0", none⟩])) []
      ⟨"B", false, [("==", "2.0")], []⟩).2.1 [Line.good ⟨"six", ">=1.0", none⟩] "2.0"
      rfl (by decide)).1
  · exact (C8_autocache (fun _ => .ok (some [Line.good ⟨"six", ">=1.0", none⟩])) []
      ⟨"B", false, [("==", "2.0")], []⟩).2.2.2 [Line.good ⟨"six", ">=1.0", none⟩] "2.0"
      rfl rfl (by decide) (by decide)

theorem contains_extra_without (m : Option Marker) :
    contains_extra (get_without_extra m) = false := by
  unfold get_without_extra
  by_cases h : ((m.getD []).filter fun c =>
      match c with
      | Clause.extra _ => false
      | Clause.cond _ => true).isEmpty
  · rw [if_pos h]
    rfl
  · rw [if_neg h]
    unfold contains_extra
    simp only [Option.getD_some]
    rw [List.any_eq_false]
    intro c hc
    have h2 := (List.mem_filter.1 hc).2
    cases c with
    | extra nm => simp at h2
    | cond t => simp

theorem process_line_no_extra (extras : List String) (l l2 : Line)
    (h : process_line extras l = .ok (some l2)) :
    ∀ d, from_line l2 = some d → contains_extra d.markers = false := by
  simp only [process_line] at h
  cases hp : from_line l with
  | none =>
    simp only [hp] at h
    exact Except.noConfusion h
  | some r =>
    simp only [hp] at h
    cases hm : r.markers with
    | none =>
      simp only [hm, Except.ok.injEq, Option.some.injEq] at h
      subst h
      intro d hd
      rw [hp, Option.some.injEq] at hd
      subst hd
      rw [hm]
      rfl
    | some m =>
      simp only [hm] at h
      split at h
      · simp at h
      · simp only [Except.ok.injEq, Option.some.injEq] at h
        subst h
        intro d hd
        simp only [Dep.as_line, from_line, Option.some.injEq] at hd
        subst hd
        exact contains_extra_without (some m)

theorem process_entry_lines_mem (extras : List String) (ls out : List Line)
    (h : process_entry_lines extras ls = .ok out) :
    ∀ l2 ∈ out, ∃ l ∈ ls, process_line extras l = .ok (some l2) := by
  induction ls generalizing out with
  | nil =>
    simp only [process_entry_lines, Except.ok.injEq] at h
    subst h
    simp
  | cons l rest ih =>
    simp only [process_entry_lines] at h
    cases hp : process_line extras l with
    | error e =>
      simp only [hp] at h
      exact Except.noConfusion h
    | ok o =>
      cases o with
      | none =>
        simp only [hp] at h
        intro l2 hl2
        obtain ⟨l3, hl3, hpl⟩ := ih out h l2 hl2
        exact ⟨l3, List.mem_cons_of_mem _ hl3, hpl⟩
      | some l2a =>
        simp only [hp] at h
        cases hr : process_entry_lines extras rest with
        | error e =>
          simp only [hr] at h
          exact Except.noConfusion h
        | ok rest2 =>
          simp only [hr, Except.ok.injEq] at h
          subst h
          intro l2 hl2
          rcases List.mem_cons.1 hl2 with h2 | h2
          · subst h2
            exact ⟨l, List.mem_cons_self _ _, hp⟩
          · obtain ⟨l3, hl3, hpl⟩ := ih rest2 hr l2 h2
            exact ⟨l3, List.mem_cons_of_mem _ hl3, hpl⟩

theorem read_requirements_mem (entries : List MetaEntry) (extras : List String)
    (out : List Line) (h : _read_requirements entries extras = .ok out) :
    ∀ l2 ∈ out, ∃ l, process_line extras l = .ok (some l2) := by
  induction entries generalizing out with
  | nil =>
    simp only [_read_requirements, Except.ok.injEq] at h
    subst h
    simp
  | cons e rest ih =>
    simp only [_read_requirements] at h
    by_cases hs : entry_skip extras e = true
    · rw [if_pos hs] at h
      exact fun l2 hl2 => ih out h l2 hl2
    · rw [if_neg hs] at h
      cases hp : process_entry_lines extras (entry_requires e) with
      | error err =>
        simp only [hp] at h
        exact Except.noConfusion h
      | ok ls =>
        simp only [hp] at h
        cases hr : _read_requirements rest extras with
        | error err =>
          simp only [hr] at h
          exact Except.noConfusion h
        | ok ls2 =>
          simp only [hr, Except.ok.injEq] at h
          subst h
          intro l2 hl2
          rcases List.mem_append.1 hl2 with h2 | h2
          · obtain ⟨l, -, hpl⟩ := process_entry_lines_mem extras (entry_requires e) ls hp l2 h2
            exact ⟨l, hpl⟩
          · exact ih ls2 hr l2 h2

theorem process_line_err (extras : List String) (l : Line) (e : Err)
    (h : process_line extras l = .error e) : e = Err.parseError := by
  simp only [process_line] at h
  cases hp : from_line l with
  | none =>
    simp only [hp, Except.error.injEq] at h
    exact h.symm
  | some r =>
    simp only [hp] at h
    cases hm : r.markers with
    | none =>
      simp only [hm] at h
      exact Except.noConfusion h
    | some m =>
      simp only [hm] at h
      split at h <;> exact Except.noConfusion h

theorem process_entry_lines_err (extras : List String) (ls : List Line) (e : Err)
    (h : process_entry_lines extras ls = .error e) : e = Err.parseError := by
  revert e
  induction ls with
  | nil =>
    intro e h
    simp only [process_entry_lines] at h
    exact Except.noConfusion h
  | cons l rest ih =>
    intro e h
    simp only [process_entry_lines] at h
    cases hp : process_line extras l with
    | error e2 =>
      simp only [hp, Except.error.injEq] at h
      exact h ▸ process_line_err extras l e2 hp
    | ok o =>
      cases o with
      | none =>
        simp only [hp] at h
        exact ih e h
      | some l2 =>
        simp only [hp] at h
        cases hr : process_entry_lines extras rest with
        | error e2 =>
          simp only [hr, Except.error.injEq] at h
          exact h ▸ ih e2 hr
        | ok rest2 =>
          simp only [hr] at h
          exact Except.noConfusion h

theorem read_requirements_err (entries : List MetaEntry) (extras : List String)
    (e : Err) (h : _read_requirements entries extras = .error e) :
    e = Err.parseError := by
  revert e
  induction entries with
  | nil =>
    intro e h
    simp only [_read_requirements] at h
    exact Except.noConfusion h
  | cons en rest ih =>
    intro e h
    simp only [_read_requirements] at h
    by_cases hs : entry_skip extras en = true
    · rw [if_pos hs] at h
      exact ih e h
    · rw [if_neg hs] at h
      cases hp : process_entry_lines extras (entry_requires en) with
      | error e2 =>
        simp only [hp, Except.error.injEq] at h
        exact h ▸ process_entry_lines_err extras (entry_requires en) e2 hp
      | ok ls =>
        simp only [hp] at h
        cases hr : _read_requirements rest extras with
        | error e2 =>
          simp only [hr, Except.error.injEq] at h
          exact h ▸ ih e2 hr
        | ok ls2 =>
          simp only [hr] at h
          exact Except.noConfusion h

/-- C5: extras-scoping in the local-build metadata reader.  An entry
tagged with an extra that was not requested contributes nothing; a
surviving line whose marker gates on a non-empty set of extras is
dropped when no requested extra is in that set and otherwise kept with
the extra-conditions stripped from its marker (the remaining marker,
possibly empty, kept); and every line of a successful result — in
particular for a requirement with no requested extras — parses to a
dependency whose marker carries no extra-condition. -/
theorem C5_extras_scoping (entries : List MetaEntry) (extras : List String) :
    (∀ E lines rest, extras.contains E = false →
      _read_requirements (MetaEntry.dict (some E) lines :: rest) extras
        = _read_requirements rest extras) ∧
    (∀ l r m, from_line l = some r → r.markers = some m →
      (get_contained_extras (some m)).isEmpty = false →
      (((extras.any fun e => (get_contained_extras (some m)).contains e) = false →
        process_line extras l = .ok none) ∧
       ((extras.any fun e => (get_contained_extras (some m)).contains e) = true →
        process_line extras l
          = .ok (some (Dep.as_line { r with markers := get_without_extra (some m) }))))) ∧
    (∀ out, _read_requirements entries extras = .ok out →
      ∀ l2 ∈ out, ∀ d, from_line l2 = some d → contains_extra d.markers = false) := by
  refine ⟨?_, ?_, ?_⟩
  · intro E lines rest hE
    have hs : entry_skip extras (MetaEntry.dict (some E) lines) = true := by
      simp only [entry_skip, entry_extra, hE]
      rfl
    simp only [_read_requirements, hs, if_true]
  · intro l r m hl hm hne
    constructor
    · intro hany
      have hcond : ¬((get_contained_extras (some m)).isEmpty = true) ∧
          ¬((extras.any fun e => (get_contained_extras (some m)).contains e) = true) :=
        ⟨by rw [hne]; exact Bool.false_ne_true,
         by rw [hany]; exact Bool.false_ne_true⟩
      simp only [process_line, hl, hm]
      rw [if_pos hcond]
    · intro hany
      have hcond : ¬(¬((get_contained_extras (some m)).isEmpty = true) ∧
          ¬((extras.any fun e => (get_contained_extras (some m)).contains e) = true)) :=
        fun hcon => hcon.2 hany
      simp only [process_line, hl, hm]
      rw [if_neg hcond]
  · intro out hout l2 hl2 d hd
    obtain ⟨l, hpl⟩ := read_requirements_mem entries extras out hout l2 hl2
    exact process_line_no_extra extras l l2 hpl d hd

/-- Witness for C5: the metadata entry tagged `security` containing
`cryptography>=1.0; extra == "security"` is skipped entirely without
the extra; the line is dropped by the marker gate without the extra and
kept with the marker stripped when `security` is requested. -/
theorem C5_witness :
    _read_requirements
        [MetaEntry.dict (some "security")
          [Line.good ⟨"cryptography", ">=1.0", some [Clause.extra "security"]⟩]] []
      = _read_requirements [] [] ∧
    process_line [] (Line.good ⟨"cryptography", ">=1.0", some [Clause.extra "security"]⟩)
      = .ok none ∧
    process_line ["security"]
        (Line.good ⟨"cryptography", ">=1.0", some [Clause.extra "security"]⟩)
      = .ok (some (Dep.as_line
          { Dep.mk "cryptography" ">=1.0" (some [Clause.extra "security"]) with
            markers := get_without_extra (some [Clause.extra "security"]) })) := by
  refine ⟨?_, ?_, ?_⟩
  · exact (C5_extras_scoping [] []).1 "security"
      [Line.good ⟨"cryptography", ">=1.0", some [Clause.extra "security"]⟩] [] rfl
  · exact ((C5_extras_scoping [] []).2.1
      (Line.good ⟨"cryptography", ">=1.0", some [Clause.extra "security"]⟩)
      (Dep.mk "cryptography" ">=1.0" (some [Clause.extra "security"]))
      [Clause.extra "security"] rfl rfl rfl).1 rfl
  · exact ((C5_extras_scoping [] ["security"]).2.1
      (Line.good ⟨"cryptography", ">=1.0", some [Clause.extra "security"]⟩)
      (Dep.mk "cryptography" ">=1.0" (some [Clause.extra "security"]))
      [Clause.extra "security"] rfl rfl rfl).2 (by decide)

/-- C9 counterexample: an environment whose builder produced a usable
artifact (`w.whl`, existing on disk) whose metadata contains an
unparsable line.  The local-build tier raises — a parse error, not a
build error — although the builder returned a usable artifact, so the
tier raising an error is not equivalent to the builder returning no
usable artifact, and with a usable artifact the tier does not always
return a list. -/
theorem C9_counterexample :
    _get_dependencies_from_pip
        ⟨fun _ => none, [], some "w.whl", fun _ => true, [MetaEntry.str (Line.bad "x")]⟩
        ⟨"a", false, [("==", "1.0")], []⟩
      = .error .parseError ∧
    wheel_usable ⟨fun _ => none, [], some "w.whl", fun _ => true,
        [MetaEntry.str (Line.bad "x")]⟩ = true ∧
    ∀ ls, ¬(_get_dependencies_from_pip
        ⟨fun _ => none, [], some "w.whl", fun _ => true, [MetaEntry.str (Line.bad "x")]⟩
        ⟨"a", false, [("==", "1.0")], []⟩ = .ok ls) := by
  refine ⟨rfl, rfl, ?_⟩
  intro ls h
  have h2 : (Except.error Err.parseError : Except Err (List Line)) = .ok ls := h
  exact Except.noConfusion h2

/-- C9 (amended): the local-build tier raises a build error exactly
when the builder returned no usable artifact (a null or empty path, or
a path that does not exist on disk); when the artifact is usable the
tier is the metadata read — a possibly-empty list when every relevant
line parses, a propagated parse error otherwise — and in no case does
it return null (its type has no NotFound outcome). -/
theorem C9_build_error_amended (env : Env) (i : Ireq) :
    (_get_dependencies_from_pip env i = .error .buildError ↔
      wheel_usable env = false) ∧
    (wheel_usable env = true →
      _get_dependencies_from_pip env i = _read_requirements env.run_requires i.extras) ∧
    (wheel_usable env = true → ∀ e,
      _get_dependencies_from_pip env i = .error e → e = .parseError) := by
  by_cases hw : wheel_usable env = true
  · have hrun : _get_dependencies_from_pip env i
        = _read_requirements env.run_requires i.extras := by
      unfold _get_dependencies_from_pip
      simp [hw]
    refine ⟨?_, fun _ => hrun, fun _ e he => read_requirements_err _ _ e (by rw [← hrun]; exact he)⟩
    constructor
    · intro h
      rw [hrun] at h
      have h2 := read_requirements_err _ _ _ h
      exact absurd h2 (by decide)
    · intro h
      rw [hw] at h
      cases h
  · have hw2 : wheel_usable env = false := by
      simpa using hw
    have hrun : _get_dependencies_from_pip env i = .error .buildError := by
      unfold _get_dependencies_from_pip
      simp [hw2]
    refine ⟨by simp [hrun, hw2], ?_, ?_⟩
    · intro h
      rw [h] at hw2
      cases hw2
    · intro h
      rw [h] at hw2
      cases hw2

/-- Witness for C9's amended theorem: a usable artifact with empty
metadata, where the tier returns the (empty) metadata read. -/
theorem C9_witness :
    _get_dependencies_from_pip ⟨fun _ => none, [], some "w.whl", fun _ => true, []⟩
        ⟨"b", false, [("==", "2.0")], []⟩
      = _read_requirements [] [] :=
  (C9_build_error_amended ⟨fun _ => none, [], some "w.whl", fun _ => true, []⟩
    ⟨"b", false, [("==", "2.0")], []⟩).2.1 rfl

/-- C3: the getter list of `get_dependencies` is, in order, the cache
tier, the auto-cached json tier, and the auto-cached pip tier; the
first tier to return a non-null list (empty included) determines the
result — its lines are parsed into requirement objects — and the
invocation count certifies that no later tier runs (1, 2 or 3 tiers
invoked when the first, second or third tier wins). -/
theorem C3_tier_order_short_circuit (env : Env) (c : Cache) (i : Ireq) :
    (get_dependencies env c i
      = run_getters [fun c2 => _get_dependencies_from_cache c2 i,
                     fun c2 => _cached (json_fn env) c2 i,
                     fun c2 => _cached (pip_fn env) c2 i] c none) ∧
    (∀ ls c2, _get_dependencies_from_cache c i = (.ok (some ls), c2) →
      get_dependencies env c i = (parse_deps ls, c2, 1)) ∧
    (∀ c1 ls, _get_dependencies_from_cache c i = (.ok none, c1) →
      json_fn env i = .ok (some ls) →
      get_dependencies env c i
        = (parse_deps ls, (_cached (json_fn env) c1 i).2, 2)) ∧
    (∀ e c1 ls, _get_dependencies_from_cache c i = (.error e, c1) →
      json_fn env i = .ok (some ls) →
      get_dependencies env c i
        = (parse_deps ls, (_cached (json_fn env) c1 i).2, 2)) ∧
    (∀ c1 ls, _get_dependencies_from_cache c i = (.ok none, c1) →
      json_fn env i = .ok none → pip_fn env i = .ok (some ls) →
      get_dependencies env c i
        = (parse_deps ls, (_cached (pip_fn env) c1 i).2, 3)) := by
  refine ⟨rfl, ?_, ?_, ?_, ?_⟩
  · intro ls c2 h1
    simp only [get_dependencies, getters, run_getters, h1]
  · intro c1 ls h1 h2
    cases hk : cache_key i with
    | none => simp only [get_dependencies, getters, run_getters, h1, _cached, h2, hk]
    | some k => simp only [get_dependencies, getters, run_getters, h1, _cached, h2, hk]
  · intro e c1 ls h1 h2
    cases hk : cache_key i with
    | none => simp only [get_dependencies, getters, run_getters, h1, _cached, h2, hk]
    | some k => simp only [get_dependencies, getters, run_getters, h1, _cached, h2, hk]
  · intro c1 ls h1 h2 h3
    cases hk : cache_key i with
    | none =>
      simp only [get_dependencies, getters, run_getters, h1, _cached, h2, h3, hk]
    | some k =>
      simp only [get_dependencies, getters, run_getters, h1, _cached, h2, h3, hk]

/-- Witness for C3: a valid cached entry for `Flask==1.0` wins in the
cache tier; exactly one tier is invoked. -/
theorem C3_witness :
    get_dependencies ⟨fun _ => none, [], none, fun _ => false, []⟩
        [(("flask", "1.0"), [Line.good ⟨"werkzeug", ">=0.15", none⟩])]
        ⟨"Flask", false, [("==", "1.0")], []⟩
      = (parse_deps [Line.good ⟨"werkzeug", ">=0.15", none⟩],
         [(("flask", "1.0"), [Line.good ⟨"werkzeug", ">=0.15", none⟩])], 1) :=
  (C3_tier_order_short_circuit ⟨fun _ => none, [], none, fun _ => false, []⟩
    [(("flask", "1.0"), [Line.good ⟨"werkzeug", ">=0.15", none⟩])]
    ⟨"Flask", false, [("==", "1.0")], []⟩).2.1
    [Line.good ⟨"werkzeug", ">=0.15", none⟩]
    [(("flask", "1.0"), [Line.good ⟨"werkzeug", ">=0.15", none⟩])] rfl

/-- C4: when every getter completes without a non-null result, the
chain raises the most recently recorded error — so with several raising
tiers the last one's error wins — or the generic exhaustion error when
none was raised; a raising tier never prevents the remaining getters
from being attempted (all of them are invoked).  The second part
instantiates this on `get_dependencies`: cache tier raising, json tier
NotFound, pip tier raising — the pip (last) error is re-raised after
all three tiers ran. -/
theorem C4_chain_exhaustion (env : Env) (c : Cache) (i : Ireq) :
    (∀ gs c0 last, all_miss gs c0 = true →
      (run_getters gs c0 last).1
        = (match last_err gs c0 last with
           | some e => Except.error e
           | none => Except.error Err.exhausted) ∧
      (run_getters gs c0 last).2.2 = gs.length) ∧
    (∀ e1 e3 c1, _get_dependencies_from_cache c i = (.error e1, c1) →
      json_fn env i = .ok none → pip_fn env i = .error e3 →
      (get_dependencies env c i).1 = .error e3 ∧
      (get_dependencies env c i).2.2 = 3) := by
  constructor
  · intro gs
    induction gs with
    | nil => intro c0 last h; exact ⟨rfl, rfl⟩
    | cons g rest ih =>
      intro c0 last h
      simp only [all_miss] at h
      cases hg : g c0 with
      | mk res c2 =>
        simp only [hg] at h
        cases res with
        | error e =>
          constructor
          · simp only [run_getters, last_err, hg]
            exact (ih c2 (some e) h).1
          · simp only [run_getters, hg, List.length_cons]
            rw [(ih c2 (some e) h).2]
        | ok o =>
          cases o with
          | none =>
            constructor
            · simp only [run_getters, last_err, hg]
              exact (ih c2 last h).1
            · simp only [run_getters, hg, List.length_cons]
              rw [(ih c2 last h).2]
          | some ls => cases h
  · intro e1 e3 c1 h1 h2 h3
    have hrun : get_dependencies env c i = (.error e3, c1, 3) := by
      simp only [get_dependencies, getters, run_getters, h1, _cached, h2, h3]
    rw [hrun]
    exact ⟨rfl, rfl⟩

/-- Witness for C4: the unpinned `django>1.8` makes the cache tier
raise, the json tier finds nothing (no sources), and the pip tier
raises a build error (no artifact); the chain re-raises the build
error — the last tier's error — after invoking all three tiers. -/
theorem C4_witness :
    (get_dependencies ⟨fun _ => none, [], none, fun _ => false, []⟩ []
        ⟨"django", false, [(">", "1.8")], []⟩).1 = .error .buildError ∧
    (get_dependencies ⟨fun _ => none, [], none, fun _ => false, []⟩ []
        ⟨"django", false, [(">", "1.8")], []⟩).2.2 = 3 :=
  (C4_chain_exhaustion ⟨fun _ => none, [], none, fun _ => false, []⟩ []
    ⟨"django", false, [(">", "1.8")], []⟩).2 Err.typeError Err.buildError []
    rfl rfl rfl

/-- Witness for C10 at a concrete pinned input (`django==1.8`). -/
theorem C10_witness :
    (is_pinned ⟨some [("==", "1.8")], false⟩ = true ↔
      ∃ v, get_pinned_version ⟨some [("==", "1.8")], false⟩ = .ok v) ∧
    (is_pinned ⟨some [("==", "1.8")], false⟩ = true ↔
      ∃ op v, (IreqLike.mk (some [("==", "1.8")]) false).specifier = some [(op, v)] ∧
        (IreqLike.mk (some [("==", "1.8")]) false).editable = false ∧
        (op = "==" ∨ op = "===") ∧ str_ends_with v ".*" = false) ∧
    (∀ e, get_pinned_version ⟨some [("==", "1.8")], false⟩ = .error e →
      is_pinned ⟨some [("==", "1.8")], false⟩ = false) :=
  C10_is_pinned ⟨some [("==", "1.8")], false⟩

end Passa
